import Mathlib

/-!
Shallow embedding of the SurfSUP real-time check-in / websocket subsystem.

Source files embedded here:
* the operative mock `WebSocketService` class
  (connect / disconnect / handleConnectionError / subscribe / broadcastMessage) —
  the version with exponential reconnect backoff (`reconnectDelay` starting at
  2000 ms, doubled per failure up to `MAX_RECONNECT_DELAY = 30000`) and the
  `currentReconnectAttempt` / `currentReconnectDelay` getters consumed by
  `WebSocketStatusContext` and the header UI.  (An older copy of the class at
  `src/services/websocket.ts` lacks the backoff and the reconnect-status
  broadcast; where the two differ, this file embeds the operative version.)
* `src/services/api.ts` — the check-in registry
  (`activeCheckIns` / `activeSurferCounts` module state, `checkInToSpot`,
  `checkOutFromSpot`, `getSurferCount`).
* `src/services/globalState.ts` — `globalSurferCounts`, `userCheckIns`,
  `updateGlobalSurferCount`, `updateUserCheckedInStatus`.

Modelling conventions:
* JavaScript numbers holding counts are modelled as `Int` (so that
  non-negativity is a real statement, not forced by the type).
* `Date.now()` timestamps are `Nat` milliseconds.  Each API operation first
  `await`s a simulated-latency timer (1000 ms for check-in, 800 ms for
  check-out, 300 ms for count reads) before reading the clock, so in a
  sequential (fully-awaited) trace the clock value read by consecutive
  operations strictly increases; the model advances the `now` field by the
  awaited latency at the start of each operation.
* `Record<string, T>` objects that are only ever read/written at a key are
  modelled as total functions with the JS read defaults baked in
  (`x || 0`, `!x`, `x > 0` all agree with a total function defaulting to 0);
  the two records that are *iterated* by key (`activeCheckIns` via
  `for (const spotId in activeCheckIns)`, `userCheckIns` via `Object.keys`)
  are modelled as association lists in insertion order.
* `setTimeout` timers are modelled by recording the scheduled delay
  (`pendingReconnectDelay`); the `send` round-trip echo (300 ms) is modelled
  as settling before the next operation ("fully awaited" semantics): when the
  service is connected the echoed message is applied to the global state,
  when it is not connected `send` is a warning no-op.
-/

namespace SurfSup

/-! ## WebSocket service (the operative `WebSocketService` class) -/

/-- Payload of a `CONNECTION_STATUS` broadcast:
`{ connected: boolean, error?: string }`, plus the two extra fields the
reconnect-status broadcast of `handleConnectionError` attaches
(`reconnectAttempt`, `reconnectDelay` — absent on every other
connection-status message). -/
structure ConnectionStatusMessage where
  connected : Bool
  error : Option String
  reconnectAttempt : Option Nat := none
  reconnectDelay : Option Nat := none
deriving DecidableEq

/-- The fields of the `WebSocketService` singleton that the reconnection
logic touches.  `reconnectDelay` is the mutable backoff delay (initialized to
2000 ms); `pendingReconnectDelay` records the delay of the reconnect timer
scheduled via `setTimeout` in `handleConnectionError` (`none` when no timer
handle is stored); `broadcasts` is the log of `CONNECTION_STATUS` messages
handed to `broadcastMessage`, in order.  The disabled `mockUpdateInterval`
is never set (`startMockUpdates` only logs) and is omitted. -/
structure WSState where
  isConnected : Bool
  reconnectAttempts : Nat
  reconnectDelay : Nat
  pendingReconnectDelay : Option Nat
  broadcasts : List ConnectionStatusMessage
deriving DecidableEq

/-- `private readonly MAX_RECONNECT_ATTEMPTS = 5`. -/
def MAX_RECONNECT_ATTEMPTS : Nat := 5

/-- The backoff floor: `private reconnectDelay: number = 2000; // Start with
2 seconds`, also the literal the success path of `connect()` resets to. -/
def INITIAL_RECONNECT_DELAY : Nat := 2000

/-- `private readonly MAX_RECONNECT_DELAY = 30000; // Max 30 seconds`. -/
def MAX_RECONNECT_DELAY : Nat := 30000

/-- Appending a `CONNECTION_STATUS` message to the broadcast log (the
`broadcastMessage` call sites of connect/disconnect/handleConnectionError). -/
def broadcastStatus (m : ConnectionStatusMessage) (s : WSState) : WSState :=
  { s with broadcasts := s.broadcasts ++ [m] }

/-- `handleConnectionError`: sets `_isConnected = false` and broadcasts
`{connected: false, error: error.message}`.  Then, only while
`reconnectAttempts < MAX_RECONNECT_ATTEMPTS`: increments the attempt
counter, broadcasts a second status message `{connected: false, error:
"Attempting to reconnect (n/5)", reconnectAttempt, reconnectDelay}` carrying
the new counter and the current delay, schedules a retry via
`setTimeout(..., this.reconnectDelay)`, and finally doubles the stored delay
capped at the maximum (`reconnectDelay = Math.min(reconnectDelay * 2,
MAX_RECONNECT_DELAY)`).  Once the counter has reached the maximum it only
logs "Max reconnection attempts reached". -/
def handleConnectionError (errMsg : String) (s : WSState) : WSState :=
  let s1 := broadcastStatus { connected := false, error := some errMsg }
    { s with isConnected := false }
  if s1.reconnectAttempts < MAX_RECONNECT_ATTEMPTS then
    let attempts := s1.reconnectAttempts + 1
    let s2 := broadcastStatus
      { connected := false,
        error := some ("Attempting to reconnect (" ++ toString attempts ++ "/"
          ++ toString MAX_RECONNECT_ATTEMPTS ++ ")"),
        reconnectAttempt := some attempts,
        reconnectDelay := some s1.reconnectDelay }
      { s1 with reconnectAttempts := attempts }
    { s2 with
      pendingReconnectDelay := some s2.reconnectDelay,
      reconnectDelay := min (s2.reconnectDelay * 2) MAX_RECONNECT_DELAY }
  else s1

/-- `connect()`: after the 1-second connection delay, fails (rejecting and
running `handleConnectionError`) exactly when
`Math.random() < 0.2 && this.reconnectAttempts === 0`; the random draw is the
Boolean `randBelow02` input.  Otherwise it sets `_isConnected = true`, resets
`reconnectAttempts` to 0 and `reconnectDelay` to 2000, broadcasts
`{connected: true}` and resolves `true`.  The stored reconnect-timer handle
is not cleared on success. -/
def connect (randBelow02 : Bool) (s : WSState) : Except String Bool × WSState :=
  if randBelow02 && s.reconnectAttempts == 0 then
    (Except.error "Failed to connect to WebSocket server",
     handleConnectionError "Failed to connect to WebSocket server" s)
  else
    (Except.ok true,
     broadcastStatus { connected := true, error := none }
       { s with isConnected := true, reconnectAttempts := 0,
                reconnectDelay := INITIAL_RECONNECT_DELAY })

/-- `disconnect()`: `if (!this._isConnected) return;` — otherwise it sets
`_isConnected = false`, clears the mock-update and reconnect timers, and
broadcasts `{connected: false, error: 'Disconnected from server'}`. -/
def disconnect (s : WSState) : WSState :=
  if !s.isConnected then s
  else
    broadcastStatus { connected := false, error := some "Disconnected from server" }
      { s with isConnected := false, pendingReconnectDelay := none }

/-- The singleton's initial state: disconnected, zero attempts, delay at its
floor, no timers. -/
def initialWSState : WSState :=
  { isConnected := false, reconnectAttempts := 0,
    reconnectDelay := INITIAL_RECONNECT_DELAY,
    pendingReconnectDelay := none, broadcasts := [] }

/-- `n` consecutive connection failures (`handleConnectionError` applied `n`
times, as `triggerError` does), oldest first. -/
def failN (errMsg : String) : Nat → WSState → WSState
  | 0, s => s
  | n + 1, s => failN errMsg n (handleConnectionError errMsg s)

/-! ## Subscription / broadcast layer (`subscribe` / `broadcastMessage`) -/

/-- What a subscriber callback does when invoked: nothing, or call the
unsubscribe closure of the subscriber with the given identifier (registered
for the published type, resp. for the wildcard type). -/
inductive SubEffect where
  | pass : SubEffect
  | unsubTyped : Nat → SubEffect
  | unsubWildcard : Nat → SubEffect
deriving DecidableEq

/-- A registered callback.  Distinct callback function references are
modelled by distinct `id`s; `effect` is the callback body's action. -/
structure Subscriber where
  id : Nat
  effect : SubEffect
deriving DecidableEq

/-- The subscriber lists relevant to one published message:
`subscribers.get(message.type)` and `subscribers.get('*')`. -/
structure SubscriberState where
  typed : List Subscriber
  wildcard : List Subscriber
deriving DecidableEq

/-- The unsubscribe closure returned by `subscribe`:
`indexOf` the callback in the list it was registered in, then `splice` it out
(first occurrence only; no-op when absent). -/
def unsubscribeId (t : Nat) : List Subscriber → List Subscriber
  | [] => []
  | c :: cs => if c.id = t then cs else c :: unsubscribeId t cs

/-- Running one callback body against the live subscriber lists. -/
def applyEffect : SubEffect → SubscriberState → SubscriberState
  | SubEffect.pass, s => s
  | SubEffect.unsubTyped t, s => { s with typed := unsubscribeId t s.typed }
  | SubEffect.unsubWildcard t, s => { s with wildcard := unsubscribeId t s.wildcard }

/-- `subscribe(type, callback)`: pushes the callback onto the list for its
type; the matching unsubscribe closure is `unsubscribeId c.id`. -/
def subscribeTyped (c : Subscriber) (s : SubscriberState) : SubscriberState :=
  { s with typed := s.typed ++ [c] }

/-- The snapshot array `[...callbacks, ...allCallbacks]` built by
`broadcastMessage` before iterating. -/
def snapshot (s : SubscriberState) : List Subscriber :=
  s.typed ++ s.wildcard

/-- The `forEach` loop of `broadcastMessage`: every callback in the snapshot
is invoked (each inside `try`/`catch`, so no callback can stop the loop),
mutating the live lists as it goes.  Returns the invoked callback ids in
invocation order, together with the final lists. -/
def runCallbacks : List Subscriber → SubscriberState → List Nat × SubscriberState
  | [], s => ([], s)
  | c :: cs, s =>
    let s1 := applyEffect c.effect s
    let r := runCallbacks cs s1
    (c.id :: r.1, r.2)

/-- `broadcastMessage`: snapshot the current lists, then invoke every
callback of the snapshot. -/
def broadcastMessage (s : SubscriberState) : List Nat × SubscriberState :=
  runCallbacks (snapshot s) s

/-! ## Check-in registry (`src/services/api.ts` + `globalState.ts`) -/

/-- A `CheckIn` record as built by `checkInToSpot`.  The `id` field models
the `Date.now()` value inside `` `checkin-${Date.now()}` `` (the string
wrapper is injective in it); `timestamp`/`expiresAt` model the ISO strings
through the instants they denote. -/
structure CheckIn where
  id : Nat
  userId : String
  spotId : String
  timestamp : Nat
  expiresAt : Nat
  isActive : Bool
  conditions : Option String
  comment : Option String
  imageUrls : Option (List String)
deriving DecidableEq

/-- The optional `data?: Partial<CheckIn>` argument of `checkInToSpot`
(only the fields `checkInToSpot` reads). -/
structure CheckInData where
  conditions : Option String
  comment : Option String
  imageUrls : Option (List String)
deriving DecidableEq

/-- The module-level mutable state touched by the check-in API, plus the
websocket connection flag it depends on and the clock. -/
structure ApiState where
  /-- `activeCheckIns : Record<string, CheckIn[]>`, keys in insertion order. -/
  activeCheckIns : List (String × List CheckIn)
  /-- `activeSurferCounts : Record<string, number>`; absent keys read as 0. -/
  activeSurferCounts : String → Int
  /-- `globalSurferCounts` of `globalState.ts`; absent keys read as 0. -/
  globalSurferCounts : String → Int
  /-- `userCheckIns : Record<string, boolean>` of `globalState.ts`. -/
  userCheckIns : List (String × Bool)
  /-- `webSocketService._isConnected`, read by `send`. -/
  wsConnected : Bool
  /-- The current `Date.now()` value in milliseconds. -/
  now : Nat

/-- `activeCheckIns[spotId]`, reading absent keys as the empty list. -/
def listFor (aci : List (String × List CheckIn)) (spotId : String) : List CheckIn :=
  match aci.find? (fun p => p.1 == spotId) with
  | some p => p.2
  | none => []

/-- `if (!activeCheckIns[spotId]) { activeCheckIns[spotId] = []; }
activeCheckIns[spotId].push(checkIn);` — append to the spot's list, creating
the key (at the end, JS insertion order) when absent. -/
def pushRecord : List (String × List CheckIn) → String → CheckIn → List (String × List CheckIn)
  | [], spotId, r => [(spotId, [r])]
  | p :: ps, spotId, r =>
    if p.1 == spotId then (p.1, p.2 ++ [r]) :: ps
    else p :: pushRecord ps spotId r

/-- `findIndex(checkin => checkin.id === checkInId)` followed by
`splice(index, 1)`: remove the first record with the given id, returning it
and the remaining list. -/
def removeById : List CheckIn → Nat → Option (CheckIn × List CheckIn)
  | [], _ => none
  | c :: cs, cid =>
    if c.id == cid then some (c, cs)
    else
      match removeById cs cid with
      | some (f, rest) => some (f, c :: rest)
      | none => none

/-- The `for (const spotId in activeCheckIns)` loop of `checkOutFromSpot`:
scan spots in key order, remove the first matching record from the first spot
whose list contains it, and `break`. -/
def findAndRemove : List (String × List CheckIn) → Nat →
    Option (String × CheckIn × List (String × List CheckIn))
  | [], _ => none
  | (sp, l) :: ps, cid =>
    match removeById l cid with
    | some (f, l1) => some (sp, f, (sp, l1) :: ps)
    | none =>
      match findAndRemove ps cid with
      | some (fsp, f, ps1) => some (fsp, f, (sp, l) :: ps1)
      | none => none

/-- Write one key of a numeric record. -/
def setCount (f : String → Int) (spotId : String) (v : Int) : String → Int :=
  fun sp => if sp == spotId then v else f sp

/-- `userCheckIns[spotId] = v`, creating the key at the end when absent. -/
def setFlag : List (String × Bool) → String → Bool → List (String × Bool)
  | [], sp, v => [(sp, v)]
  | p :: ps, sp, v => if p.1 == sp then (sp, v) :: ps else p :: setFlag ps sp v

/-- `updateUserCheckedInStatus` of `globalState.ts`: when checking in, every
existing key is set to `key === spotId` (`Object.keys(userCheckIns).forEach`);
when checking out, only the given key is written. -/
def updateUserCheckedInStatus (m : List (String × Bool)) (spotId : String)
    (isCheckedIn : Bool) : List (String × Bool) :=
  if isCheckedIn then m.map (fun p => (p.1, p.1 == spotId))
  else setFlag m spotId false

/-- `if (!activeSurferCounts[spotId]) { activeSurferCounts[spotId] = 0; }
activeSurferCounts[spotId]++;` — on numbers, `!c` is truthy exactly for 0. -/
def incrementCount (c : Int) : Int :=
  (if c == 0 then 0 else c) + 1

/-- The fixed check-in expiry window: `2 * 60 * 60 * 1000` ms (2 hours). -/
def CHECKIN_WINDOW_MS : Nat := 2 * 60 * 60 * 1000

/-- `checkInToSpot(userId, spotId, data?)`: after the awaited 1000 ms
simulated latency, builds a record with `isActive: true` and
`expiresAt = now + 2h`, pushes it onto the spot's list, increments the
spot's count, updates the global user-check-in flags, and sends a
`SURFER_COUNT_UPDATE` and a `CHECK_IN_STATUS_CHANGE` message whose echoes
(when the websocket is connected) run `updateGlobalSurferCount` resp.
`updateUserCheckedInStatus` against the global state.  Returns the record. -/
def checkInToSpot (userId spotId : String) (data : Option CheckInData)
    (s : ApiState) : CheckIn × ApiState :=
  let t := s.now + 1000
  let r : CheckIn :=
    { id := t, userId := userId, spotId := spotId,
      timestamp := t, expiresAt := t + CHECKIN_WINDOW_MS, isActive := true,
      conditions := data.bind CheckInData.conditions,
      comment := data.bind CheckInData.comment,
      imageUrls := data.bind CheckInData.imageUrls }
  let aci := pushRecord s.activeCheckIns spotId r
  let newCount := incrementCount (s.activeSurferCounts spotId)
  let counts := setCount s.activeSurferCounts spotId newCount
  let user1 := updateUserCheckedInStatus s.userCheckIns spotId true
  let global :=
    if s.wsConnected then setCount s.globalSurferCounts spotId newCount
    else s.globalSurferCounts
  let user2 :=
    if s.wsConnected then updateUserCheckedInStatus user1 spotId true else user1
  (r, { s with now := t, activeCheckIns := aci, activeSurferCounts := counts,
               globalSurferCounts := global, userCheckIns := user2 })

/-- `checkOutFromSpot(checkInId)`: after the awaited 800 ms simulated
latency, scans all spots for the record; when found it splices the record
out, updates the user flag, decrements the spot's count only when it is
`> 0`, and sends the two websocket messages (the count payload being the
count read after the decrement), returning `true`.  When no record matches
it returns `false` having mutated nothing. -/
def checkOutFromSpot (checkInId : Nat) (s : ApiState) : Bool × ApiState :=
  let t := s.now + 800
  match findAndRemove s.activeCheckIns checkInId with
  | some (foundSpotId, _foundCheckIn, aci) =>
    let user1 := updateUserCheckedInStatus s.userCheckIns foundSpotId false
    let c := s.activeSurferCounts foundSpotId
    let counts :=
      if 0 < c then setCount s.activeSurferCounts foundSpotId (c - 1)
      else s.activeSurferCounts
    let global :=
      if s.wsConnected then setCount s.globalSurferCounts foundSpotId (counts foundSpotId)
      else s.globalSurferCounts
    let user2 :=
      if s.wsConnected then updateUserCheckedInStatus user1 foundSpotId false else user1
    (true, { s with now := t, activeCheckIns := aci, activeSurferCounts := counts,
                    globalSurferCounts := global, userCheckIns := user2 })
  | none => (false, { s with now := t })

/-- `getSurferCount(spotId)`: after the awaited 300 ms simulated latency,
reads `globalSurferCounts[spotId] || 0`, writes that value back into
`activeSurferCounts[spotId]` ("update the local state to ensure it's in
sync"), and returns it. -/
def getSurferCount (spotId : String) (s : ApiState) : Int × ApiState :=
  let t := s.now + 300
  let currentCount := s.globalSurferCounts spotId
  (currentCount,
   { s with now := t,
            activeSurferCounts := setCount s.activeSurferCounts spotId currentCount })

/-- The module state after initialization (`resetAllCheckInsAndCounts` runs
at import time, zeroing every count — directly via `updateGlobalSurferCount`,
not through the websocket — and emptying every list). -/
def initialApiState (connected : Bool) : ApiState :=
  { activeCheckIns :=
      [("stonypoint", []), ("parkpoint", []), ("lesterriver", []), ("superiorentry", [])],
    activeSurferCounts := fun _ => 0,
    globalSurferCounts := fun _ => 0,
    userCheckIns :=
      [("stonypoint", false), ("parkpoint", false), ("lesterriver", false),
       ("superiorentry", false)],
    wsConnected := connected,
    now := 0 }

/-- One registry API call of a sequential (fully awaited) trace. -/
inductive ApiOp where
  | checkIn (userId spotId : String) (data : Option CheckInData)
  | checkOut (checkInId : Nat)
  | getCount (spotId : String)

/-- The state transition of one API call. -/
def applyOp (op : ApiOp) (s : ApiState) : ApiState :=
  match op with
  | ApiOp.checkIn u sp d => (checkInToSpot u sp d s).2
  | ApiOp.checkOut cid => (checkOutFromSpot cid s).2
  | ApiOp.getCount sp => (getSurferCount sp s).2

/-- Run a sequential trace of API calls. -/
def runOps (ops : List ApiOp) (s : ApiState) : ApiState :=
  ops.foldl (fun st op => applyOp op st) s

/-- All records currently held in the registry, in spot key order. -/
def joinedRecords (aci : List (String × List CheckIn)) : List CheckIn :=
  (aci.map Prod.snd).flatten

/-- The identifiers of all currently held check-in records. -/
def allIds (s : ApiState) : List Nat :=
  (joinedRecords s.activeCheckIns).map CheckIn.id

/-! ## Expiration sweep

Modelled from the spec: no expiration sweep exists anywhere under `src/`
(records carry `expiresAt` but nothing ever reads it back); §4.4 of the
specification describes the intended operation, which is modelled here from
the spec's words: a sweep treats any record whose expiration has passed as
implicitly inactive (`active → false`) and decrements the relevant spot's
count exactly once per record so expired — i.e. only for records that were
still active when the sweep saw them. -/

/-- Modelled from the spec: "any record whose expiration has passed". -/
def isExpired (nowMs : Nat) (r : CheckIn) : Bool :=
  decide (r.expiresAt < nowMs)

/-- Modelled from the spec: mark every expired record of a list inactive. -/
def sweepRecords (nowMs : Nat) (l : List CheckIn) : List CheckIn :=
  l.map (fun r => if isExpired nowMs r then { r with isActive := false } else r)

/-- Modelled from the spec: the number of records of a list that are expired
but still marked active — each such record is decremented for exactly once. -/
def newlyExpiredCount (nowMs : Nat) (l : List CheckIn) : Nat :=
  (l.filter (fun r => r.isActive && isExpired nowMs r)).length

/-- Modelled from the spec (§4.4, missing from `src/`): the expiration sweep —
deactivate every expired record and decrement each spot's surfer count once
per newly expired record. -/
def sweepExpired (nowMs : Nat) (s : ApiState) : ApiState :=
  { s with
    activeCheckIns := s.activeCheckIns.map (fun p => (p.1, sweepRecords nowMs p.2)),
    activeSurferCounts := fun sp =>
      s.activeSurferCounts sp -
        (newlyExpiredCount nowMs (listFor s.activeCheckIns sp) : Int) }

/-! ## Registry invariant -/

/-- The invariant maintained by every sequential trace of registry calls:
spot keys are distinct; record identifiers are distinct and bounded by the
clock (each was a past `Date.now()` reading); both count stores are
non-negative; and — whenever the websocket transport is connected, so that
every `send` echo lands — the local count equals the number of records held
for the spot and the global count mirrors the local one. -/
structure RegInv (s : ApiState) : Prop where
  keys_nodup : (s.activeCheckIns.map Prod.fst).Nodup
  ids_nodup : (allIds s).Nodup
  ids_le_now : ∀ i ∈ allIds s, i ≤ s.now
  counts_nonneg : ∀ sp, 0 ≤ s.activeSurferCounts sp
  global_nonneg : ∀ sp, 0 ≤ s.globalSurferCounts sp
  synced : s.wsConnected = true →
    ∀ sp, s.activeSurferCounts sp = ((listFor s.activeCheckIns sp).length : Int) ∧
          s.globalSurferCounts sp = s.activeSurferCounts sp

/-! ## Theorems: association-list helpers -/

theorem listFor_cons (a : String) (l : List CheckIn) (ps : List (String × List CheckIn))
    (sp : String) :
    listFor ((a, l) :: ps) sp = if a == sp then l else listFor ps sp := by
  unfold listFor
  cases h : (a == sp) <;> simp [List.find?_cons, h]

theorem listFor_all_nil (aci : List (String × List CheckIn)) (sp : String)
    (h : ∀ p ∈ aci, p.2 = ([] : List CheckIn)) :
    listFor aci sp = [] := by
  unfold listFor
  cases hf : aci.find? (fun p => p.1 == sp) with
  | none => rfl
  | some p => exact h p (List.mem_of_find?_eq_some hf)

theorem listFor_pushRecord_self (aci : List (String × List CheckIn)) (sp : String)
    (r : CheckIn) :
    listFor (pushRecord aci sp r) sp = listFor aci sp ++ [r] := by
  induction aci with
  | nil => simp [pushRecord, listFor_cons, listFor]
  | cons p ps ih =>
    obtain ⟨a, l⟩ := p
    by_cases h : (a == sp) = true
    · simp [pushRecord, h, listFor_cons]
    · simp only [pushRecord, h, Bool.false_eq_true, if_false]
      rw [listFor_cons, listFor_cons, if_neg h, if_neg h, ih]

theorem listFor_pushRecord_ne (aci : List (String × List CheckIn)) (sp sp2 : String)
    (r : CheckIn) (h : sp2 ≠ sp) :
    listFor (pushRecord aci sp r) sp2 = listFor aci sp2 := by
  have hbe : (sp == sp2) = false := by simpa using Ne.symm h
  induction aci with
  | nil => simp [pushRecord, listFor_cons, listFor, hbe]
  | cons p ps ih =>
    obtain ⟨a, l⟩ := p
    by_cases ha : (a == sp) = true
    · have ha2 : (a == sp2) = false := by
        have haeq : a = sp := by simpa using ha
        simpa [haeq] using Ne.symm h
      simp [pushRecord, ha, listFor_cons, ha2]
    · simp only [pushRecord, ha, Bool.false_eq_true, if_false]
      rw [listFor_cons, listFor_cons, ih]

theorem pushRecord_keys (aci : List (String × List CheckIn)) (sp : String) (r : CheckIn) :
    (pushRecord aci sp r).map Prod.fst =
      if sp ∈ aci.map Prod.fst then aci.map Prod.fst else aci.map Prod.fst ++ [sp] := by
  induction aci with
  | nil => simp [pushRecord]
  | cons p ps ih =>
    obtain ⟨a, l⟩ := p
    by_cases h : (a == sp) = true
    · have ha : a = sp := by simpa using h
      simp [pushRecord, h, ha]
    · have ha : ¬ a = sp := by simpa using h
      have ha2 : ¬ sp = a := Ne.symm ha
      by_cases hm : sp ∈ ps.map Prod.fst
      · simp [pushRecord, h, ih, hm, ha2]
      · simp [pushRecord, h, ih, hm, ha2]

theorem pushRecord_keys_nodup (aci : List (String × List CheckIn)) (sp : String)
    (r : CheckIn) (h : (aci.map Prod.fst).Nodup) :
    ((pushRecord aci sp r).map Prod.fst).Nodup := by
  rw [pushRecord_keys]
  by_cases hm : sp ∈ aci.map Prod.fst
  · simpa [hm] using h
  · simp [hm, List.nodup_append, h]

theorem joinedRecords_cons (a : String) (l : List CheckIn)
    (ps : List (String × List CheckIn)) :
    joinedRecords ((a, l) :: ps) = l ++ joinedRecords ps := by
  simp [joinedRecords]

theorem joinedRecords_pushRecord (aci : List (String × List CheckIn)) (sp : String)
    (r : CheckIn) :
    List.Perm (joinedRecords (pushRecord aci sp r)) (r :: joinedRecords aci) := by
  induction aci with
  | nil => simp [pushRecord, joinedRecords]
  | cons p ps ih =>
    obtain ⟨a, l⟩ := p
    by_cases h : (a == sp) = true
    · simp only [pushRecord, h, if_true, joinedRecords_cons]
      have h1 : (l ++ [r]) ++ joinedRecords ps = l ++ (r :: joinedRecords ps) := by simp
      rw [h1]
      exact List.perm_middle
    · simp only [pushRecord, h, Bool.false_eq_true, if_false, joinedRecords_cons]
      exact (ih.append_left l).trans List.perm_middle

theorem removeById_none_iff (l : List CheckIn) (cid : Nat) :
    removeById l cid = none ↔ ∀ c ∈ l, c.id ≠ cid := by
  induction l with
  | nil => simp [removeById]
  | cons c cs ih =>
    by_cases h : (c.id == cid) = true
    · have hc : c.id = cid := by simpa using h
      simp [removeById, h, hc]
    · have hc : c.id ≠ cid := by simpa using h
      cases hr : removeById cs cid with
      | none =>
        have hall : ∀ c2 ∈ c :: cs, c2.id ≠ cid := by
          intro c2 hc2
          rcases List.mem_cons.mp hc2 with h1 | h1
          · subst h1
            exact hc
          · exact ih.mp hr c2 h1
        have hgoal : removeById (c :: cs) cid = none := by simp [removeById, h, hr]
        rw [hgoal]
        exact ⟨fun _ => hall, fun _ => rfl⟩
      | some x => simp [removeById, h, hr, hc, (not_iff_not.mpr ih).mp (by simp [hr])]

theorem removeById_some_decomp (l : List CheckIn) (cid : Nat) (f : CheckIn)
    (l2 : List CheckIn) (h : removeById l cid = some (f, l2)) :
    f.id = cid ∧ ∃ u v, l = u ++ f :: v ∧ l2 = u ++ v := by
  induction l generalizing l2 with
  | nil => simp [removeById] at h
  | cons c cs ih =>
    by_cases hb : (c.id == cid) = true
    · simp only [removeById, hb, if_true, Option.some.injEq, Prod.mk.injEq] at h
      obtain ⟨hf, hl⟩ := h
      subst hf hl
      exact ⟨by simpa using hb, [], cs, rfl, rfl⟩
    · cases hr : removeById cs cid with
      | none => simp [removeById, hb, hr] at h
      | some x =>
        obtain ⟨g, rest⟩ := x
        simp only [removeById, hb, Bool.false_eq_true, if_false, hr,
          Option.some.injEq, Prod.mk.injEq] at h
        obtain ⟨hf, hl⟩ := h
        subst hf hl
        obtain ⟨hid, u, v, hcs, hrest⟩ := ih rest hr
        exact ⟨hid, c :: u, v, by simp [hcs], by simp [hrest]⟩

theorem findAndRemove_none_iff (aci : List (String × List CheckIn)) (cid : Nat) :
    findAndRemove aci cid = none ↔ ∀ c ∈ joinedRecords aci, c.id ≠ cid := by
  induction aci with
  | nil => simp [findAndRemove, joinedRecords]
  | cons p ps ih =>
    obtain ⟨a, l⟩ := p
    cases hr : removeById l cid with
    | some x =>
      obtain ⟨f, l2⟩ := x
      have hmem : f ∈ l ∧ f.id = cid := by
        obtain ⟨hid, u, v, hl, _⟩ := removeById_some_decomp l cid f l2 hr
        exact ⟨by simp [hl], hid⟩
      simp only [findAndRemove, hr, joinedRecords_cons]
      constructor
      · intro hcontra
        exact absurd hcontra (by simp)
      · intro hall
        exact absurd (hall f (by simp [hmem.1])) (by simp [hmem.2])
    | none =>
      have hl : ∀ c ∈ l, c.id ≠ cid := (removeById_none_iff l cid).mp hr
      simp only [findAndRemove, hr, joinedRecords_cons]
      cases hf : findAndRemove ps cid with
      | some x =>
        obtain ⟨fsp, f, ps2⟩ := x
        have hnot : ¬ ∀ c ∈ joinedRecords ps, c.id ≠ cid := by
          rw [← ih]
          simp [hf]
        constructor
        · intro hcontra
          simp at hcontra
        · intro hall
          exact absurd (fun c hc => hall c (by simp [hc])) hnot
      | none =>
        have hps : ∀ c ∈ joinedRecords ps, c.id ≠ cid := ih.mp hf
        constructor
        · intro _ c hc
          rcases List.mem_append.mp hc with hcl | hcp
          · exact hl c hcl
          · exact hps c hcp
        · intro _
          rfl

theorem findAndRemove_some_decomp (aci : List (String × List CheckIn)) (cid : Nat)
    (fsp : String) (f : CheckIn) (aci2 : List (String × List CheckIn))
    (h : findAndRemove aci cid = some (fsp, f, aci2)) :
    f.id = cid ∧ ∃ u v, joinedRecords aci = u ++ f :: v ∧ joinedRecords aci2 = u ++ v := by
  induction aci generalizing aci2 with
  | nil => simp [findAndRemove] at h
  | cons p ps ih =>
    obtain ⟨a, l⟩ := p
    cases hr : removeById l cid with
    | some x =>
      obtain ⟨g, l2⟩ := x
      simp only [findAndRemove, hr, Option.some.injEq, Prod.mk.injEq] at h
      obtain ⟨hsp, hg, haci⟩ := h
      subst haci
      obtain ⟨hid, u, v, hl, hl2⟩ := removeById_some_decomp l cid g l2 hr
      subst hg
      exact ⟨hid, u, v ++ joinedRecords ps, by simp [joinedRecords_cons, hl],
        by simp [joinedRecords_cons, hl2]⟩
    | none =>
      cases hf : findAndRemove ps cid with
      | none => simp [findAndRemove, hr, hf] at h
      | some x =>
        obtain ⟨fsp2, g, ps2⟩ := x
        simp only [findAndRemove, hr, hf, Option.some.injEq, Prod.mk.injEq] at h
        obtain ⟨hsp, hg, haci⟩ := h
        subst hg haci
        obtain ⟨hid, u, v, hps, hps2⟩ := ih ps2 (by rw [hf, hsp])
        refine ⟨hid, l ++ u, v, ?_, ?_⟩
        · simp [joinedRecords_cons, hps]
        · simp [joinedRecords_cons, hps2]

theorem findAndRemove_keys (aci : List (String × List CheckIn)) (cid : Nat)
    (fsp : String) (f : CheckIn) (aci2 : List (String × List CheckIn))
    (h : findAndRemove aci cid = some (fsp, f, aci2)) :
    aci2.map Prod.fst = aci.map Prod.fst ∧ fsp ∈ aci.map Prod.fst := by
  induction aci generalizing aci2 with
  | nil => simp [findAndRemove] at h
  | cons p ps ih =>
    obtain ⟨a, l⟩ := p
    cases hr : removeById l cid with
    | some x =>
      obtain ⟨g, l2⟩ := x
      simp only [findAndRemove, hr, Option.some.injEq, Prod.mk.injEq] at h
      obtain ⟨hsp, _, haci⟩ := h
      subst haci
      simp [hsp.symm]
    | none =>
      cases hf : findAndRemove ps cid with
      | none => simp [findAndRemove, hr, hf] at h
      | some x =>
        obtain ⟨fsp2, g, ps2⟩ := x
        simp only [findAndRemove, hr, hf, Option.some.injEq, Prod.mk.injEq] at h
        obtain ⟨hsp, hgf, haci⟩ := h
        subst haci
        have hk := ih ps2 (by rw [hf, hsp, hgf])
        simp [hk.1, hk.2]

theorem findAndRemove_listFor (aci : List (String × List CheckIn)) (cid : Nat)
    (fsp : String) (f : CheckIn) (aci2 : List (String × List CheckIn))
    (hnd : (aci.map Prod.fst).Nodup)
    (h : findAndRemove aci cid = some (fsp, f, aci2)) :
    removeById (listFor aci fsp) cid = some (f, listFor aci2 fsp) ∧
    ∀ sp, sp ≠ fsp → listFor aci2 sp = listFor aci sp := by
  induction aci generalizing aci2 with
  | nil => simp [findAndRemove] at h
  | cons p ps ih =>
    obtain ⟨a, l⟩ := p
    cases hr : removeById l cid with
    | some x =>
      obtain ⟨g, l2⟩ := x
      simp only [findAndRemove, hr, Option.some.injEq, Prod.mk.injEq] at h
      obtain ⟨hsp, hg, haci⟩ := h
      subst hg haci
      subst hsp
      constructor
      · rw [listFor_cons, listFor_cons]
        simp [hr]
      · intro sp hspne
        have hbe : (a == sp) = false := by simpa using Ne.symm hspne
        rw [listFor_cons, listFor_cons, hbe]
        simp
    | none =>
      cases hf : findAndRemove ps cid with
      | none => simp [findAndRemove, hr, hf] at h
      | some x =>
        obtain ⟨fsp2, g, ps2⟩ := x
        simp only [findAndRemove, hr, hf, Option.some.injEq, Prod.mk.injEq] at h
        obtain ⟨hsp, hg, haci⟩ := h
        subst hg haci
        have hf2 : findAndRemove ps cid = some (fsp, g, ps2) := by rw [hf, hsp]
        have hnd2 : (ps.map Prod.fst).Nodup := (List.nodup_cons.mp (by simpa using hnd)).2
        have hane : a ∉ ps.map Prod.fst := (List.nodup_cons.mp (by simpa using hnd)).1
        have hfspne : a ≠ fsp := by
          intro he
          refine hane ?_
          rw [he]
          exact (findAndRemove_keys ps cid fsp g ps2 hf2).2
        obtain ⟨ihrem, ihother⟩ := ih ps2 hnd2 hf2
        have hbe : (a == fsp) = false := by simpa using hfspne
        constructor
        · rw [listFor_cons, listFor_cons, hbe]
          simpa using ihrem
        · intro sp hspne
          by_cases hsa : (a == sp) = true
          · rw [listFor_cons, listFor_cons, hsa]
            simp
          · have hsab : (a == sp) = false := by simpa using hsa
            rw [listFor_cons, listFor_cons, hsab]
            simpa using ihother sp hspne

/-! ## Theorems: registry state equations and invariant preservation -/

theorem setCount_self (f : String → Int) (sp : String) (v : Int) :
    setCount f sp v sp = v := by
  simp [setCount]

theorem setCount_ne (f : String → Int) (sp : String) (v : Int) (sp2 : String)
    (h : sp2 ≠ sp) : setCount f sp v sp2 = f sp2 := by
  simp [setCount, h]

theorem incrementCount_eq (c : Int) : incrementCount c = c + 1 := by
  unfold incrementCount
  by_cases h : c = 0 <;> simp [h]

theorem checkIn_fst (u sp : String) (d : Option CheckInData) (s : ApiState) :
    (checkInToSpot u sp d s).1 =
      { id := s.now + 1000, userId := u, spotId := sp, timestamp := s.now + 1000,
        expiresAt := s.now + 1000 + CHECKIN_WINDOW_MS, isActive := true,
        conditions := d.bind CheckInData.conditions,
        comment := d.bind CheckInData.comment,
        imageUrls := d.bind CheckInData.imageUrls } := rfl

theorem checkIn_aci (u sp : String) (d : Option CheckInData) (s : ApiState) :
    (checkInToSpot u sp d s).2.activeCheckIns
      = pushRecord s.activeCheckIns sp (checkInToSpot u sp d s).1 := rfl

theorem checkIn_counts (u sp : String) (d : Option CheckInData) (s : ApiState) :
    (checkInToSpot u sp d s).2.activeSurferCounts
      = setCount s.activeSurferCounts sp (incrementCount (s.activeSurferCounts sp)) := rfl

theorem checkIn_global (u sp : String) (d : Option CheckInData) (s : ApiState) :
    (checkInToSpot u sp d s).2.globalSurferCounts
      = if s.wsConnected
        then setCount s.globalSurferCounts sp (incrementCount (s.activeSurferCounts sp))
        else s.globalSurferCounts := rfl

theorem checkIn_now (u sp : String) (d : Option CheckInData) (s : ApiState) :
    (checkInToSpot u sp d s).2.now = s.now + 1000 := rfl

theorem checkOutFromSpot_eq_none (cid : Nat) (s : ApiState)
    (h : findAndRemove s.activeCheckIns cid = none) :
    checkOutFromSpot cid s = (false, { s with now := s.now + 800 }) := by
  unfold checkOutFromSpot
  rw [h]

theorem checkOutFromSpot_eq_some (cid : Nat) (s : ApiState) (fsp : String)
    (f : CheckIn) (aci2 : List (String × List CheckIn))
    (h : findAndRemove s.activeCheckIns cid = some (fsp, f, aci2)) :
    checkOutFromSpot cid s =
      (true,
       { s with
         now := s.now + 800,
         activeCheckIns := aci2,
         activeSurferCounts :=
           if 0 < s.activeSurferCounts fsp
           then setCount s.activeSurferCounts fsp (s.activeSurferCounts fsp - 1)
           else s.activeSurferCounts,
         globalSurferCounts :=
           if s.wsConnected
           then setCount s.globalSurferCounts fsp
             ((if 0 < s.activeSurferCounts fsp
               then setCount s.activeSurferCounts fsp (s.activeSurferCounts fsp - 1)
               else s.activeSurferCounts) fsp)
           else s.globalSurferCounts,
         userCheckIns :=
           if s.wsConnected
           then updateUserCheckedInStatus
             (updateUserCheckedInStatus s.userCheckIns fsp false) fsp false
           else updateUserCheckedInStatus s.userCheckIns fsp false }) := by
  unfold checkOutFromSpot
  rw [h]

theorem getCount_counts (sp : String) (s : ApiState) :
    (getSurferCount sp s).2.activeSurferCounts
      = setCount s.activeSurferCounts sp (s.globalSurferCounts sp) := rfl

theorem getCount_fst (sp : String) (s : ApiState) :
    (getSurferCount sp s).1 = s.globalSurferCounts sp := rfl

theorem checkIn_preserves (u sp : String) (d : Option CheckInData) (s : ApiState)
    (hs : RegInv s) : RegInv (checkInToSpot u sp d s).2 := by
  have hperm : List.Perm
      (joinedRecords (pushRecord s.activeCheckIns sp (checkInToSpot u sp d s).1))
      ((checkInToSpot u sp d s).1 :: joinedRecords s.activeCheckIns) :=
    joinedRecords_pushRecord _ _ _
  have hid : (checkInToSpot u sp d s).1.id = s.now + 1000 := rfl
  have hpermIds : List.Perm (allIds (checkInToSpot u sp d s).2)
      ((s.now + 1000) :: allIds s) := by
    have h1 := hperm.map CheckIn.id
    simpa [allIds, checkIn_aci, hid] using h1
  have hnotmem : (s.now + 1000) ∉ allIds s := by
    intro hmem
    have h1 := hs.ids_le_now _ hmem
    omega
  refine ⟨?_, ?_, ?_, ?_, ?_, ?_⟩
  · show (((checkInToSpot u sp d s).2.activeCheckIns).map Prod.fst).Nodup
    rw [checkIn_aci]
    exact pushRecord_keys_nodup _ _ _ hs.keys_nodup
  · exact hpermIds.nodup_iff.mpr (List.nodup_cons.mpr ⟨hnotmem, hs.ids_nodup⟩)
  · intro i hi
    rcases List.mem_cons.mp (hpermIds.mem_iff.mp hi) with h1 | h1
    · subst h1
      exact le_refl _
    · have := hs.ids_le_now i h1
      show i ≤ s.now + 1000
      omega
  · intro sp2
    rw [checkIn_counts]
    by_cases h2 : sp2 = sp
    · subst h2
      rw [setCount_self, incrementCount_eq]
      have := hs.counts_nonneg sp2
      omega
    · rw [setCount_ne _ _ _ _ h2]
      exact hs.counts_nonneg sp2
  · intro sp2
    rw [checkIn_global]
    by_cases hc : s.wsConnected = true
    · rw [if_pos hc]
      by_cases h2 : sp2 = sp
      · subst h2
        rw [setCount_self, incrementCount_eq]
        have := hs.counts_nonneg sp2
        omega
      · rw [setCount_ne _ _ _ _ h2]
        exact hs.global_nonneg sp2
    · rw [if_neg hc]
      exact hs.global_nonneg sp2
  · intro hconn sp2
    have hconn0 : s.wsConnected = true := hconn
    have hsy := hs.synced hconn0
    constructor
    · rw [checkIn_counts, checkIn_aci]
      by_cases h2 : sp2 = sp
      · subst h2
        rw [setCount_self, incrementCount_eq, listFor_pushRecord_self, (hsy sp2).1]
        simp [List.length_append]
      · rw [setCount_ne _ _ _ _ h2, listFor_pushRecord_ne _ _ _ _ h2]
        exact (hsy sp2).1
    · rw [checkIn_counts, checkIn_global, if_pos hconn0]
      by_cases h2 : sp2 = sp
      · subst h2
        rw [setCount_self, setCount_self]
      · rw [setCount_ne _ _ _ _ h2, setCount_ne _ _ _ _ h2]
        exact (hsy sp2).2

theorem checkOut_preserves (cid : Nat) (s : ApiState) (hs : RegInv s) :
    RegInv (checkOutFromSpot cid s).2 := by
  cases hfr : findAndRemove s.activeCheckIns cid with
  | none =>
    rw [checkOutFromSpot_eq_none cid s hfr]
    refine ⟨hs.keys_nodup, hs.ids_nodup, ?_, hs.counts_nonneg, hs.global_nonneg, ?_⟩
    · intro i hi
      have := hs.ids_le_now i hi
      show i ≤ s.now + 800
      omega
    · intro hconn sp2
      exact hs.synced hconn sp2
  | some x =>
    obtain ⟨fsp, f, aci2⟩ := x
    rw [checkOutFromSpot_eq_some cid s fsp f aci2 hfr]
    dsimp only
    obtain ⟨hfid, u, v, hju, hjv⟩ := findAndRemove_some_decomp _ _ _ _ _ hfr
    have hsub : List.Sublist (joinedRecords aci2) (joinedRecords s.activeCheckIns) := by
      rw [hju, hjv]
      exact List.Sublist.append_left (List.sublist_cons_self f v) u
    have hcnn : ∀ sp2, 0 ≤
        (if 0 < s.activeSurferCounts fsp
         then setCount s.activeSurferCounts fsp (s.activeSurferCounts fsp - 1)
         else s.activeSurferCounts) sp2 := by
      intro sp2
      by_cases hpos : 0 < s.activeSurferCounts fsp
      · rw [if_pos hpos]
        by_cases h2 : sp2 = fsp
        · subst h2
          rw [setCount_self]
          omega
        · rw [setCount_ne _ _ _ _ h2]
          exact hs.counts_nonneg sp2
      · rw [if_neg hpos]
        exact hs.counts_nonneg sp2
    refine ⟨?_, ?_, ?_, hcnn, ?_, ?_⟩
    · show (aci2.map Prod.fst).Nodup
      rw [(findAndRemove_keys _ _ _ _ _ hfr).1]
      exact hs.keys_nodup
    · exact hs.ids_nodup.sublist (hsub.map CheckIn.id)
    · intro i hi
      have hmem : i ∈ allIds s := (hsub.map CheckIn.id).subset hi
      have := hs.ids_le_now i hmem
      show i ≤ s.now + 800
      omega
    · intro sp2
      dsimp only
      by_cases hc : s.wsConnected = true
      · rw [if_pos hc]
        by_cases h2 : sp2 = fsp
        · subst h2
          rw [setCount_self]
          exact hcnn sp2
        · rw [setCount_ne _ _ _ _ h2]
          exact hs.global_nonneg sp2
      · rw [if_neg hc]
        exact hs.global_nonneg sp2
    · intro hconn sp2
      dsimp only
      have hconn0 : s.wsConnected = true := hconn
      have hsy := hs.synced hconn0
      obtain ⟨hrem, hother⟩ := findAndRemove_listFor _ _ _ _ _ hs.keys_nodup hfr
      obtain ⟨_, u2, v2, hlu, hlv⟩ := removeById_some_decomp _ _ _ _ hrem
      have hlen : (listFor s.activeCheckIns fsp).length
          = (listFor aci2 fsp).length + 1 := by
        rw [hlu, hlv]
        simp
        omega
      have hcfsp : s.activeSurferCounts fsp = ((listFor aci2 fsp).length : Int) + 1 := by
        rw [(hsy fsp).1, hlen]
        push_cast
        ring
      have hpos : 0 < s.activeSurferCounts fsp := by
        rw [hcfsp]
        positivity
      constructor
      · rw [if_pos hpos]
        by_cases h2 : sp2 = fsp
        · subst h2
          rw [setCount_self, hcfsp]
          ring
        · rw [setCount_ne _ _ _ _ h2, hother sp2 h2]
          exact (hsy sp2).1
      · rw [if_pos hconn0]
        by_cases h2 : sp2 = fsp
        · subst h2
          rw [setCount_self]
        · rw [setCount_ne _ _ _ _ h2, if_pos hpos, setCount_ne _ _ _ _ h2]
          exact (hsy sp2).2

theorem getCount_preserves (sp : String) (s : ApiState) (hs : RegInv s) :
    RegInv (getSurferCount sp s).2 := by
  refine ⟨hs.keys_nodup, hs.ids_nodup, ?_, ?_, hs.global_nonneg, ?_⟩
  · intro i hi
    have := hs.ids_le_now i hi
    show i ≤ s.now + 300
    omega
  · intro sp2
    rw [getCount_counts]
    by_cases h2 : sp2 = sp
    · subst h2
      rw [setCount_self]
      exact hs.global_nonneg sp2
    · rw [setCount_ne _ _ _ _ h2]
      exact hs.counts_nonneg sp2
  · intro hconn sp2
    have hconn0 : s.wsConnected = true := hconn
    have hsy := hs.synced hconn0
    constructor
    · rw [getCount_counts]
      by_cases h2 : sp2 = sp
      · subst h2
        rw [setCount_self, (hsy sp2).2]
        exact (hsy sp2).1
      · rw [setCount_ne _ _ _ _ h2]
        exact (hsy sp2).1
    · rw [getCount_counts]
      by_cases h2 : sp2 = sp
      · subst h2
        rw [setCount_self]
        rfl
      · rw [setCount_ne _ _ _ _ h2]
        exact (hsy sp2).2

theorem checkIn_wsConnected (u sp : String) (d : Option CheckInData) (s : ApiState) :
    (checkInToSpot u sp d s).2.wsConnected = s.wsConnected := rfl

theorem checkOut_wsConnected (cid : Nat) (s : ApiState) :
    (checkOutFromSpot cid s).2.wsConnected = s.wsConnected := by
  cases hfr : findAndRemove s.activeCheckIns cid with
  | none => rw [checkOutFromSpot_eq_none cid s hfr]
  | some x =>
    obtain ⟨fsp, f, aci2⟩ := x
    rw [checkOutFromSpot_eq_some cid s fsp f aci2 hfr]

theorem applyOp_preserves (op : ApiOp) (s : ApiState) (hs : RegInv s) :
    RegInv (applyOp op s) := by
  cases op with
  | checkIn u sp d => exact checkIn_preserves u sp d s hs
  | checkOut cid => exact checkOut_preserves cid s hs
  | getCount sp => exact getCount_preserves sp s hs

theorem applyOp_wsConnected (op : ApiOp) (s : ApiState) :
    (applyOp op s).wsConnected = s.wsConnected := by
  cases op with
  | checkIn u sp d => rfl
  | checkOut cid => exact checkOut_wsConnected cid s
  | getCount sp => rfl

theorem runOps_preserves (ops : List ApiOp) (s : ApiState) (hs : RegInv s) :
    RegInv (runOps ops s) := by
  induction ops generalizing s with
  | nil => exact hs
  | cons op rest ih => exact ih _ (applyOp_preserves op s hs)

theorem runOps_wsConnected (ops : List ApiOp) (s : ApiState) :
    (runOps ops s).wsConnected = s.wsConnected := by
  induction ops generalizing s with
  | nil => rfl
  | cons op rest ih =>
    have h1 : runOps (op :: rest) s = runOps rest (applyOp op s) := rfl
    rw [h1, ih, applyOp_wsConnected]

theorem regInv_init (c : Bool) : RegInv (initialApiState c) := by
  have hkeys : (initialApiState c).activeCheckIns.map Prod.fst
      = ["stonypoint", "parkpoint", "lesterriver", "superiorentry"] := rfl
  have hids : allIds (initialApiState c) = [] := rfl
  have hnil : ∀ sp2, listFor (initialApiState c).activeCheckIns sp2 = [] := by
    intro sp2
    apply listFor_all_nil
    intro p hp
    have hlist : (initialApiState c).activeCheckIns
        = [("stonypoint", []), ("parkpoint", []), ("lesterriver", []),
           ("superiorentry", [])] := rfl
    rw [hlist] at hp
    fin_cases hp <;> rfl
  refine ⟨?_, ?_, ?_, ?_, ?_, ?_⟩
  · rw [hkeys]
    decide
  · rw [hids]
    exact List.nodup_nil
  · intro i hi
    rw [hids] at hi
    exact absurd hi (List.not_mem_nil i)
  · intro sp2
    exact le_refl 0
  · intro sp2
    exact le_refl 0
  · intro _ sp2
    constructor
    · show (0 : Int) = ((listFor (initialApiState c).activeCheckIns sp2).length : Int)
      rw [hnil sp2]
      simp
    · rfl

/-! ## Theorems: reconnection engine -/

/-- Claim C1: the reconnect backoff — the stored delay starts at the floor
(2000 ms, its value in the initial state); each failed attempt while the
counter is below `MAX_RECONNECT_ATTEMPTS` schedules its retry with the
currently stored delay, then doubles the stored delay capped at
`MAX_RECONNECT_DELAY` (30000 ms) and increments the counter by exactly 1;
and a successful `connect()` resets the counter to 0 and the delay back to
its floor. -/
theorem backoff_doubles_and_resets (s : WSState) (e : String) (r : Bool) :
    initialWSState.reconnectDelay = INITIAL_RECONNECT_DELAY ∧
    (s.reconnectAttempts < MAX_RECONNECT_ATTEMPTS →
      (handleConnectionError e s).pendingReconnectDelay = some s.reconnectDelay ∧
      (handleConnectionError e s).reconnectDelay
        = min (s.reconnectDelay * 2) MAX_RECONNECT_DELAY ∧
      (handleConnectionError e s).reconnectAttempts = s.reconnectAttempts + 1) ∧
    ((connect r s).1 = Except.ok true →
      (connect r s).2.reconnectAttempts = 0 ∧
      (connect r s).2.reconnectDelay = INITIAL_RECONNECT_DELAY) := by
  refine ⟨rfl, ?_, ?_⟩
  · intro h
    simp [handleConnectionError, broadcastStatus, h]
  · intro h
    by_cases hc : (r && s.reconnectAttempts == 0) = true
    · simp [connect, hc] at h
    · simp [connect, hc, broadcastStatus]

/-- Witness for `backoff_doubles_and_resets`: the first failure from the
initial state schedules its retry with the 2000 ms floor delay and doubles
the stored delay to 4000 ms; a successful `connect()` resets the delay to
the floor. -/
theorem backoff_doubles_and_resets_witness :
    (handleConnectionError "e" initialWSState).pendingReconnectDelay
      = some INITIAL_RECONNECT_DELAY ∧
    (handleConnectionError "e" initialWSState).reconnectDelay = 4000 ∧
    (connect false initialWSState).2.reconnectDelay = INITIAL_RECONNECT_DELAY := by
  refine ⟨((backoff_doubles_and_resets initialWSState "e" false).2.1 (by decide)).1,
    ?_, ((backoff_doubles_and_resets initialWSState "e" false).2.2 (by rfl)).2⟩
  have h := ((backoff_doubles_and_resets initialWSState "e" false).2.1 (by decide)).2.1
  rw [h]
  decide

/-- Claim C3 (counterexample): after exactly `MAX_RECONNECT_ATTEMPTS = 5`
consecutive failures from the initial state, an automatic retry IS still
scheduled — the 5th failure raises the counter from 4 to 5 and schedules a
retry with the capped 30000 ms delay; only a further failure (with the
counter already at the maximum) schedules nothing. -/
theorem terminal_after_max_counterexample :
    (failN "e" MAX_RECONNECT_ATTEMPTS initialWSState).pendingReconnectDelay
      = some MAX_RECONNECT_DELAY ∧
    (failN "e" MAX_RECONNECT_ATTEMPTS initialWSState).reconnectAttempts
      = MAX_RECONNECT_ATTEMPTS := by
  decide

/-- Claim C3 (amended): once the attempt counter has reached
`MAX_RECONNECT_ATTEMPTS` — i.e. from the (MAX+1)-th consecutive failure on,
not after exactly MAX failures (the MAX-th failure still schedules one final
retry) — any number of further failures leaves the pending-retry timer and
the counter unchanged: no further automatic `connect()` is ever scheduled,
so resuming requires an explicit external `connect()` call.  The broadcasts
for such a terminal failure ARE distinguishable from intermediate failures:
a terminal failure appends exactly one plain `{connected: false, error}`
message, whereas an intermediate failure additionally appends the
"Attempting to reconnect" status message carrying the `reconnectAttempt` and
`reconnectDelay` fields. -/
theorem terminal_failure_no_retry (s : WSState) (e : String) (n : Nat)
    (h : MAX_RECONNECT_ATTEMPTS ≤ s.reconnectAttempts) :
    (failN e n s).pendingReconnectDelay = s.pendingReconnectDelay ∧
    (failN e n s).reconnectAttempts = s.reconnectAttempts ∧
    (handleConnectionError e s).broadcasts
      = s.broadcasts ++ [{ connected := false, error := some e }] ∧
    (∀ s2 : WSState, s2.reconnectAttempts < MAX_RECONNECT_ATTEMPTS →
      (handleConnectionError e s2).broadcasts
        = s2.broadcasts
          ++ [{ connected := false, error := some e },
              { connected := false,
                error := some ("Attempting to reconnect ("
                  ++ toString (s2.reconnectAttempts + 1) ++ "/"
                  ++ toString MAX_RECONNECT_ATTEMPTS ++ ")"),
                reconnectAttempt := some (s2.reconnectAttempts + 1),
                reconnectDelay := some s2.reconnectDelay }]) := by
  have hterm : ∀ s2 : WSState, MAX_RECONNECT_ATTEMPTS ≤ s2.reconnectAttempts →
      handleConnectionError e s2
        = broadcastStatus { connected := false, error := some e }
            { s2 with isConnected := false } := by
    intro s2 h2
    simp [handleConnectionError, broadcastStatus, Nat.not_lt.mpr h2]
  have hstep : ∀ s2 : WSState, MAX_RECONNECT_ATTEMPTS ≤ s2.reconnectAttempts →
      (handleConnectionError e s2).pendingReconnectDelay = s2.pendingReconnectDelay ∧
      (handleConnectionError e s2).reconnectAttempts = s2.reconnectAttempts := by
    intro s2 h2
    rw [hterm s2 h2]
    exact ⟨rfl, rfl⟩
  have hiter : ∀ (m : Nat) (s2 : WSState), MAX_RECONNECT_ATTEMPTS ≤ s2.reconnectAttempts →
      (failN e m s2).pendingReconnectDelay = s2.pendingReconnectDelay ∧
      (failN e m s2).reconnectAttempts = s2.reconnectAttempts := by
    intro m
    induction m with
    | zero =>
      intro s2 h2
      exact ⟨rfl, rfl⟩
    | succ m ih =>
      intro s2 h2
      have h1 := hstep s2 h2
      have h3 := ih (handleConnectionError e s2) (by rw [h1.2]; exact h2)
      exact ⟨h3.1.trans h1.1, h3.2.trans h1.2⟩
  refine ⟨(hiter n s h).1, (hiter n s h).2, ?_, ?_⟩
  · rw [hterm s h]
    rfl
  · intro s2 h2
    simp [handleConnectionError, broadcastStatus, h2]

/-- Witness for `terminal_failure_no_retry`: counter already at the maximum,
two further failures, no retry scheduled. -/
theorem terminal_failure_no_retry_witness :
    (failN "e" 2 { isConnected := false, reconnectAttempts := 5,
                   reconnectDelay := 30000,
                   pendingReconnectDelay := none, broadcasts := [] }).pendingReconnectDelay
      = none :=
  (terminal_failure_no_retry
    { isConnected := false, reconnectAttempts := 5, reconnectDelay := 30000,
      pendingReconnectDelay := none, broadcasts := [] } "e" 2 (by decide)).1

/-- Claim C4 (the code at the failing input): after a connection failure the
service is disconnected with a reconnect retry pending; `disconnect()` then
hits the `if (!this._isConnected) return;` guard and returns with the state
unchanged — the scheduled retry is NOT cancelled and remains pending, so its
callback later fires `connect()` even though `disconnect()` was called. -/
theorem disconnect_leaves_pending_retry :
    disconnect (handleConnectionError "boom" initialWSState)
      = handleConnectionError "boom" initialWSState ∧
    (disconnect (handleConnectionError "boom" initialWSState)).pendingReconnectDelay
      = some INITIAL_RECONNECT_DELAY := by
  decide

/-- Claim C10: `connect()` can only fail when the reconnect-attempt counter
is 0 (`Math.random() < 0.2 && this.reconnectAttempts === 0`); every
`connect()` call made while the counter is nonzero — i.e. every
automatically scheduled retry — resolves `true`, leaves the service
connected, and resets the counter to 0, regardless of the random draw. -/
theorem retry_connect_always_succeeds (r : Bool) (s : WSState)
    (h : s.reconnectAttempts ≠ 0) :
    (connect r s).1 = Except.ok true ∧
    (connect r s).2.isConnected = true ∧
    (connect r s).2.reconnectAttempts = 0 := by
  have hc : (r && s.reconnectAttempts == 0) = false := by
    cases r <;> simp [h]
  simp [connect, hc, broadcastStatus]

/-- Witness for `retry_connect_always_succeeds` with counter 3 and a failing
random draw. -/
theorem retry_connect_always_succeeds_witness :
    (connect true { isConnected := false, reconnectAttempts := 3,
                    reconnectDelay := 16000,
                    pendingReconnectDelay := some 8000,
                    broadcasts := [] }).1 = Except.ok true :=
  (retry_connect_always_succeeds true
    { isConnected := false, reconnectAttempts := 3, reconnectDelay := 16000,
      pendingReconnectDelay := some 8000, broadcasts := [] }
    (by decide)).1

/-! ## Theorems: broadcast layer -/

/-- The `forEach` loop invokes exactly the callbacks of the list it is
handed, in order, whatever the callbacks do to the live lists. -/
theorem runCallbacks_fst (l : List Subscriber) (s : SubscriberState) :
    (runCallbacks l s).1 = l.map Subscriber.id := by
  induction l generalizing s with
  | nil => rfl
  | cons c cs ih => simp [runCallbacks, ih]

/-- Claim C5 (counterexample): with subscriber 1 (whose callback
unsubscribes subscriber 2) registered before subscriber 2, a single publish
removes 2 from the live list mid-broadcast — yet still invokes 2, because
`broadcastMessage` iterates over the snapshot `[...callbacks,
...allCallbacks]` taken before the loop.  The in-flight publish therefore
does call the removed callback. -/
theorem midflight_unsubscribe_counterexample :
    (broadcastMessage { typed := [⟨1, SubEffect.unsubTyped 2⟩, ⟨2, SubEffect.pass⟩],
                        wildcard := [] }).1 = [1, 2] ∧
    (broadcastMessage { typed := [⟨1, SubEffect.unsubTyped 2⟩, ⟨2, SubEffect.pass⟩],
                        wildcard := [] }).2.typed = [⟨1, SubEffect.unsubTyped 2⟩] ∧
    2 ∈ (broadcastMessage { typed := [⟨1, SubEffect.unsubTyped 2⟩, ⟨2, SubEffect.pass⟩],
                            wildcard := [] }).1 := by
  decide

/-- Claim C5 (amended): a publish invokes exactly the callbacks subscribed
at the moment it starts (its snapshot), so a callback no longer subscribed
when a publish starts is never invoked by it — unsubscribing is effective
for all publishes that start afterwards; but a publish already in flight
iterates over its snapshot and still invokes every callback in it, including
one unsubscribed during that same broadcast. -/
theorem broadcast_invokes_snapshot_only (s : SubscriberState) (t : Nat)
    (h : t ∉ (snapshot s).map Subscriber.id) :
    t ∉ (broadcastMessage s).1 ∧
    (broadcastMessage s).1 = (snapshot s).map Subscriber.id := by
  have key : (broadcastMessage s).1 = (snapshot s).map Subscriber.id :=
    runCallbacks_fst (snapshot s) s
  exact ⟨key ▸ h, key⟩

/-- Witness for `broadcast_invokes_snapshot_only`: id 2 is not subscribed,
and the publish does not invoke it. -/
theorem broadcast_invokes_snapshot_only_witness :
    2 ∉ (broadcastMessage { typed := [⟨1, SubEffect.pass⟩], wildcard := [] }).1 :=
  (broadcast_invokes_snapshot_only
    { typed := [⟨1, SubEffect.pass⟩], wildcard := [] } 2 (by decide)).1

/-! ## Theorems: check-in registry claims -/

theorem not_mem_allIds_iff (cid : Nat) (s : ApiState) :
    cid ∉ allIds s ↔ ∀ r ∈ joinedRecords s.activeCheckIns, r.id ≠ cid := by
  simp [allIds]

theorem checkOut_mem_true (cid : Nat) (s : ApiState) (h : cid ∈ allIds s) :
    (checkOutFromSpot cid s).1 = true := by
  cases hfr : findAndRemove s.activeCheckIns cid with
  | none =>
    obtain ⟨r, hr, hid⟩ :=
      List.mem_map.mp (show cid ∈ (joinedRecords s.activeCheckIns).map CheckIn.id from h)
    exact absurd hid ((findAndRemove_none_iff _ _).mp hfr r hr)
  | some x =>
    obtain ⟨fsp, f, aci2⟩ := x
    rw [checkOutFromSpot_eq_some cid s fsp f aci2 hfr]

/-- Claim C7: calling `checkOutFromSpot` with an identifier for which no
record is held returns `false` (the not-found path does not throw — the
function's only `return false` paths are the not-found fall-through and the
`catch`), and no state is mutated: the active check-in lists, both count
stores and the user-check-in flags are exactly as before. -/
theorem checkOut_missing_no_mutation (cid : Nat) (s : ApiState)
    (h : cid ∉ allIds s) :
    (checkOutFromSpot cid s).1 = false ∧
    (checkOutFromSpot cid s).2.activeCheckIns = s.activeCheckIns ∧
    (checkOutFromSpot cid s).2.activeSurferCounts = s.activeSurferCounts ∧
    (checkOutFromSpot cid s).2.globalSurferCounts = s.globalSurferCounts ∧
    (checkOutFromSpot cid s).2.userCheckIns = s.userCheckIns := by
  have hfr : findAndRemove s.activeCheckIns cid = none :=
    (findAndRemove_none_iff _ _).mpr ((not_mem_allIds_iff cid s).mp h)
  rw [checkOutFromSpot_eq_none _ _ hfr]
  exact ⟨rfl, rfl, rfl, rfl, rfl⟩

/-- Witness for `checkOut_missing_no_mutation`: checking out an unknown
identifier on the freshly initialized registry returns `false`. -/
theorem checkOut_missing_no_mutation_witness :
    (checkOutFromSpot 42 (initialApiState true)).1 = false :=
  (checkOut_missing_no_mutation 42 (initialApiState true) (by decide)).1

/-- Claim C6: in any state reachable by a sequential trace of registry calls
(record identifiers are then pairwise distinct), a `checkOutFromSpot` on an
identifier present in the active set returns `true`, after which the
identifier is no longer held; and on any state not holding the identifier
`checkOutFromSpot` returns `false` — so the second and every later call with
the same identifier returns `false`. -/
theorem checkOut_true_then_false (ops : List ApiOp) (c : Bool) (cid : Nat)
    (h : cid ∈ allIds (runOps ops (initialApiState c))) :
    (checkOutFromSpot cid (runOps ops (initialApiState c))).1 = true ∧
    cid ∉ allIds (checkOutFromSpot cid (runOps ops (initialApiState c))).2 ∧
    (∀ s2 : ApiState, cid ∉ allIds s2 → (checkOutFromSpot cid s2).1 = false) := by
  have hinv := runOps_preserves ops _ (regInv_init c)
  refine ⟨checkOut_mem_true _ _ h, ?_, ?_⟩
  · cases hfr : findAndRemove (runOps ops (initialApiState c)).activeCheckIns cid with
    | none =>
      obtain ⟨r, hr, hid⟩ := List.mem_map.mp
        (show cid ∈ (joinedRecords (runOps ops (initialApiState c)).activeCheckIns).map
          CheckIn.id from h)
      exact absurd hid ((findAndRemove_none_iff _ _).mp hfr r hr)
    | some x =>
      obtain ⟨fsp, f, aci2⟩ := x
      rw [checkOutFromSpot_eq_some _ _ fsp f aci2 hfr]
      obtain ⟨hfid, u, v, hju, hjv⟩ := findAndRemove_some_decomp _ _ _ _ _ hfr
      have hnd : ((joinedRecords
          (runOps ops (initialApiState c)).activeCheckIns).map CheckIn.id).Nodup :=
        hinv.ids_nodup
      rw [hju] at hnd
      have hnd2 : (u.map CheckIn.id ++ f.id :: v.map CheckIn.id).Nodup := by
        simpa using hnd
      have hdisj := List.disjoint_of_nodup_append hnd2
      intro hmem
      have hmem2 : cid ∈ (joinedRecords aci2).map CheckIn.id := hmem
      rw [hjv] at hmem2
      rw [List.map_append] at hmem2
      rcases List.mem_append.mp hmem2 with hcu | hcv
      · refine hdisj hcu ?_
        rw [hfid]
        exact List.mem_cons_self _ _
      · have hfv : f.id ∉ v.map CheckIn.id :=
          (List.nodup_cons.mp hnd2.of_append_right).1
        refine hfv ?_
        rw [hfid]
        exact hcv
  · intro s2 h2
    have hfr : findAndRemove s2.activeCheckIns cid = none :=
      (findAndRemove_none_iff _ _).mpr ((not_mem_allIds_iff cid s2).mp h2)
    rw [checkOutFromSpot_eq_none _ _ hfr]

/-- Witness for `checkOut_true_then_false`: after one check-in (which, from
clock 0, creates the record with identifier 1000), checking that identifier
out returns `true`. -/
theorem checkOut_true_then_false_witness :
    (checkOutFromSpot 1000
      (runOps [ApiOp.checkIn "u1" "parkpoint" none] (initialApiState false))).1 = true :=
  (checkOut_true_then_false [ApiOp.checkIn "u1" "parkpoint" none] false 1000 (by decide)).1

/-- Claim C8: every `checkInToSpot` call builds a record with
`isActive = true`, the caller's user and spot identifiers, and
`expiresAt = timestamp + 2 hours`; appends it to that spot's active list;
increments that spot's count by exactly one; and returns the record. -/
theorem checkIn_creates_record (u sp : String) (d : Option CheckInData) (s : ApiState) :
    (checkInToSpot u sp d s).1.isActive = true ∧
    (checkInToSpot u sp d s).1.userId = u ∧
    (checkInToSpot u sp d s).1.spotId = sp ∧
    (checkInToSpot u sp d s).1.expiresAt
      = (checkInToSpot u sp d s).1.timestamp + CHECKIN_WINDOW_MS ∧
    listFor (checkInToSpot u sp d s).2.activeCheckIns sp
      = listFor s.activeCheckIns sp ++ [(checkInToSpot u sp d s).1] ∧
    (checkInToSpot u sp d s).2.activeSurferCounts sp
      = s.activeSurferCounts sp + 1 := by
  refine ⟨rfl, rfl, rfl, rfl, ?_, ?_⟩
  · rw [checkIn_aci]
    exact listFor_pushRecord_self _ _ _
  · rw [checkIn_counts, setCount_self, incrementCount_eq]

/-- Claim C2 (counterexample): `getSurferCount` reads the *global* count
store, which is only refreshed by the websocket `send` echo.  With the
transport disconnected (its initial state, and `checkInToSpot` never
requires a connection), a check-in leaves one active record while
`getSurferCount` still returns the stale 0 — the returned count does not
equal the number of currently-active records. -/
theorem getSurferCount_stale_counterexample :
    (getSurferCount "parkpoint"
        (checkInToSpot "u1" "parkpoint" none (initialApiState false)).2).1 = 0 ∧
    (listFor (checkInToSpot "u1" "parkpoint" none
        (initialApiState false)).2.activeCheckIns "parkpoint").length = 1 ∧
    (getSurferCount "parkpoint"
        (checkInToSpot "u1" "parkpoint" none (initialApiState false)).2).1
      ≠ ((listFor (checkInToSpot "u1" "parkpoint" none
          (initialApiState false)).2.activeCheckIns "parkpoint").length : Int) := by
  decide

/-- Claim C2 (amended): over every sequential trace of
`checkInToSpot` / `checkOutFromSpot` / `getSurferCount` calls, the count is
never negative (for any connection state); and provided the websocket
transport is connected — so every count broadcast's echo lands in the global
store — `getSurferCount` returns exactly the number of currently-active
records held for the spot.  (With the transport disconnected the returned
global count can be stale, per the counterexample.) -/
theorem getSurferCount_matches_records (ops : List ApiOp) (sp : String) (c : Bool) :
    (getSurferCount sp (runOps ops (initialApiState true))).1
      = ((listFor (runOps ops (initialApiState true)).activeCheckIns sp).length : Int) ∧
    0 ≤ (runOps ops (initialApiState c)).activeSurferCounts sp ∧
    0 ≤ (getSurferCount sp (runOps ops (initialApiState c))).1 := by
  have h1 := runOps_preserves ops _ (regInv_init true)
  have h2 := runOps_preserves ops _ (regInv_init c)
  have hconn : (runOps ops (initialApiState true)).wsConnected = true := by
    rw [runOps_wsConnected]
    rfl
  have hsy := h1.synced hconn
  refine ⟨?_, h2.counts_nonneg sp, ?_⟩
  · rw [getCount_fst, (hsy sp).2, (hsy sp).1]
  · rw [getCount_fst]
    exact h2.global_nonneg sp

/-! ## Theorems: expiration sweep (modelled from the spec) -/

theorem sweepRecords_idem (nowMs : Nat) (l : List CheckIn) :
    sweepRecords nowMs (sweepRecords nowMs l) = sweepRecords nowMs l := by
  unfold sweepRecords
  rw [List.map_map]
  apply List.map_congr_left
  intro r _
  by_cases h : isExpired nowMs r = true
  · have h2 : isExpired nowMs { r with isActive := false } = true := h
    simp [Function.comp, h, h2]
  · simp [Function.comp, h]

theorem newlyExpiredCount_sweep (nowMs : Nat) (l : List CheckIn) :
    newlyExpiredCount nowMs (sweepRecords nowMs l) = 0 := by
  induction l with
  | nil => rfl
  | cons r rs ih =>
    by_cases h : isExpired nowMs r = true
    · simpa [newlyExpiredCount, sweepRecords, h] using ih
    · simpa [newlyExpiredCount, sweepRecords, h] using ih

theorem listFor_map_snd (g : List CheckIn → List CheckIn) (hg : g [] = [])
    (aci : List (String × List CheckIn)) (sp : String) :
    listFor (aci.map (fun p => (p.1, g p.2))) sp = g (listFor aci sp) := by
  induction aci with
  | nil => simp [listFor, hg]
  | cons p ps ih =>
    obtain ⟨a, l⟩ := p
    by_cases h : (a == sp) = true
    · simp [List.map_cons, listFor_cons, h]
    · simp [List.map_cons, listFor_cons, h, ih]

/-- Claim C9 (spec-modelled): the expiration sweep is idempotent — running
it twice is the same as running it once.  A single sweep decrements each
spot's count by the number of records that are expired and still active;
after the first run every expired record is inactive, so the second run
decrements by 0: an already-expired record is decremented for exactly once,
never twice. -/
theorem sweepExpired_idempotent (nowMs : Nat) (s : ApiState) (sp : String) :
    sweepExpired nowMs (sweepExpired nowMs s) = sweepExpired nowMs s ∧
    (sweepExpired nowMs s).activeSurferCounts sp
      = s.activeSurferCounts sp
        - (newlyExpiredCount nowMs (listFor s.activeCheckIns sp) : Int) ∧
    (sweepExpired nowMs (sweepExpired nowMs s)).activeSurferCounts sp
      = (sweepExpired nowMs s).activeSurferCounts sp := by
  have hmain : sweepExpired nowMs (sweepExpired nowMs s) = sweepExpired nowMs s := by
    unfold sweepExpired
    dsimp only
    congr 1
    · rw [List.map_map]
      apply List.map_congr_left
      intro p _
      dsimp only [Function.comp]
      rw [sweepRecords_idem]
    · funext sp2
      rw [listFor_map_snd (sweepRecords nowMs) rfl, newlyExpiredCount_sweep]
      simp
  exact ⟨hmain, rfl, by rw [hmain]⟩

end SurfSup
